import Mathlib

/-!
Shallow embedding of the Sway compiler's storage-only-type validation pass
(`sway-core/src/semantic_analysis/storage_only_types.rs`) and proofs of the
specified properties of `check_type`, `expr_validate`, `decl_validate`,
`validate_const_decl`, `validate_fn_decl` and the code-block validator.

The pass itself is embedded directly from the source file.  The surrounding
compiler infrastructure that the source file uses but that is not part of the
excerpted sources (the `CompileResult` diagnostic accumulator with its
`ok`/`err` constructors and the `check!` macro, the type engine's
`to_typeinfo`/`extract_nested_types`/`is_type_info_storage_only`/`help_out`
interface, the declaration engine's `get_*` lookups, `Ident`,
`expect_variant_from_name`) is modelled from the spec, as noted on each such
definition.
-/

namespace Sway

/-- Source span attached to syntax nodes.  The pass only stores and copies
spans, never inspects them, so an opaque numeric identifier suffices. -/
abbrev Span := Nat

/-- Opaque interned type handle (`TypeId`). -/
abbrev TypeId := Nat

/-- Modelled from the spec: an identifier with its source span (`Ident`);
identifier equality compares the text. -/
structure Ident where
  text : String
  span : Span
deriving DecidableEq

/-- Modelled from the spec: a call path; the pass only uses its suffix. -/
structure CallPath where
  suffix : Ident
deriving DecidableEq

/-- A type handle together with the span of the type annotation
(`TypeArgument`). -/
structure TypeArgument where
  type_id : TypeId
  span : Span
deriving DecidableEq

/-- Modelled from the spec: the resolver's structural type description
(`TypeInfo`).  The pass only ever names the error-placeholder variant
(`TypeInfo::ErrorRecovery`) and otherwise treats descriptions opaquely,
querying the engines about them, so every other shape is collapsed into an
opaque payload.  Equality of descriptions is structural. -/
inductive TypeInfo where
  | ErrorRecovery
  | Other (payload : Nat)
deriving DecidableEq

/-- Modelled from the spec: compile warnings.  This pass never constructs a
warning, it only merges warning lists coming from its own recursive calls, so
the carrier is opaque. -/
inductive CompileWarning where
  | mk (payload : Nat)
deriving DecidableEq

/-- Compile errors produced or merged by this pass: the storage-only placement
violation (carrying the offending type's printable form and the offending
span, `CompileError::InvalidStorageOnlyTypeDecl`) and the enum-variant lookup
failure (modelled from the spec's error taxonomy: a selector naming a variant
absent from its enum). -/
inductive CompileError where
  | InvalidStorageOnlyTypeDecl (ty : String) (span : Span)
  | UnknownEnumVariant (variant_name : String) (span : Span)
deriving DecidableEq

/-- Modelled from the spec: the Diagnostic Result (`CompileResult<T>`)
threaded through every check — accumulated warnings and errors plus an
optional payload.  The payload's presence is the success/failure tag used by
the `check!` macro's fallback branch; as the source shows (`check_type` ends
in `ok((), warnings, errors)` with a possibly non-empty error list, and
`decl_validate` explicitly selects between `ok` and `err` by testing
`errors.is_empty()`), the tag is independent of whether errors were
accumulated. -/
structure CompileResult (α : Type) where
  value : Option α
  warnings : List CompileWarning
  errors : List CompileError
deriving DecidableEq

/-- Modelled from the spec: `ok(value, warnings, errors)` — a result carrying
a payload alongside the accumulated diagnostics. -/
def ok {α : Type} (value : α) (warnings : List CompileWarning)
    (errors : List CompileError) : CompileResult α :=
  ⟨some value, warnings, errors⟩

/-- Modelled from the spec: `err(warnings, errors)` — a payload-less result
carrying the accumulated diagnostics. -/
def err {α : Type} (warnings : List CompileWarning)
    (errors : List CompileError) : CompileResult α :=
  ⟨none, warnings, errors⟩

/-- Modelled from the spec: the read-only collaborator interface (§6) — the
type resolver's operations used by this pass.  `to_typeinfo` resolves a
handle at a span to a structural description, `none` standing for an
upstream resolution failure; `extract_nested_types` enumerates the
transitively nested component descriptions (the source returns them as a
vector, hence a list); `is_type_info_storage_only` is the storage-only
predicate; `help_out` renders a description's printable form.  The
declaration-store side of the collaborators is inlined into the declaration
nodes themselves (see `TyDecl`). -/
structure Engines where
  to_typeinfo : TypeId → Span → Option TypeInfo
  extract_nested_types : TypeInfo → List TypeInfo
  is_type_info_storage_only : TypeInfo → Bool
  help_out : TypeInfo → String

/-- Modelled from the spec: the resolution step at the top of `check_type`.
Per §4.1/§7 a resolution failure substitutes the error-placeholder
description and is not itself reported by this pass (it was already reported
by an earlier phase), so no diagnostic is produced here. -/
def to_typeinfo_or_error_recovery (eng : Engines) (ty : TypeId) (span : Span) :
    TypeInfo :=
  match eng.to_typeinfo ty span with
  | some ti => ti
  | none => TypeInfo.ErrorRecovery

/-- The Type Placement Checker (`check_type`): resolve the handle (falling
back to the error placeholder), enumerate the nested type descriptions, and
flag every nested storage-only description — except a description equal to
the resolved type itself when `ignore_self` is set — with an
`InvalidStorageOnlyTypeDecl` error at the given span.  Mirrors source lines
144–175. -/
def check_type (eng : Engines) (ty : TypeId) (span : Span)
    (ignore_self : Bool) : CompileResult Unit :=
  let type_info := to_typeinfo_or_error_recovery eng ty span
  let nested_types := eng.extract_nested_types type_info
  let errors := nested_types.foldl
    (fun errs n =>
      if ignore_self ∧ n = type_info then errs
      else if eng.is_type_info_storage_only n then
        errs ++ [CompileError.InvalidStorageOnlyTypeDecl (eng.help_out n) span]
      else errs)
    []
  ok () [] errors

/-- A struct field: its declared type and the field's span (`TyStructField`;
the validator reads `field.type_argument.type_id` and `field.span`). -/
structure TyStructField where
  type_argument : TypeArgument
  span : Span
deriving DecidableEq

/-- An enum variant: its name, declared type and span (`TyEnumVariant`). -/
structure TyEnumVariant where
  name : Ident
  type_argument : TypeArgument
  span : Span
deriving DecidableEq

/-- An enum declaration's payload as read by this pass: its variants
(`TyEnumDecl`). -/
structure TyEnumDecl where
  variants : List TyEnumVariant
deriving DecidableEq

/-- A storage-block field: its name (whose span the validator uses) and its
declared type (`TyStorageField`). -/
structure TyStorageField where
  name : Ident
  type_argument : TypeArgument
deriving DecidableEq

/-- A type-alias declaration's payload: the aliased type and the
declaration's span (`TyTypeAliasDecl`). -/
structure TyTypeAliasDecl where
  ty : TypeArgument
  span : Span
deriving DecidableEq

/-- A function parameter: its name and declared type (`TyFunctionParameter`).
-/
structure TyFunctionParameter where
  name : Ident
  type_argument : TypeArgument
deriving DecidableEq

/-- Modelled from the spec: `TyFunctionParameter::is_self` — the validator
skips the parameter named `self`. -/
def TyFunctionParameter.is_self (p : TyFunctionParameter) : Bool :=
  p.name.text == "self"

/-- Modelled from the spec: `TyEnumDecl::expect_variant_from_name` — look up
the named variant in the enum; absence is a lookup-failure error, fatal to
the caller (a payload-less result). -/
def expect_variant_from_name (ed : TyEnumDecl) (variant_name : Ident) :
    CompileResult TyEnumVariant :=
  match ed.variants.find? (fun v => v.name.text == variant_name.text) with
  | some variant => ok variant [] []
  | none => err [] [CompileError.UnknownEnumVariant variant_name.text variant_name.span]

mutual

/-- A typed expression (`TyExpression`): its variant and its resolved return
type handle.  The `span` field of the source struct is unused by this pass
and therefore omitted. -/
inductive TyExpression where
  | mk (expression : TyExpressionVariant) (return_type : TypeId)

/-- The closed set of typed-expression variants (`TyExpressionVariant`),
restricted to the fields this pass reads in each arm (`..`-elided fields are
omitted).  `Break`, `Continue` and `Return` are suffixed with `Exp` because
the bare words are Lean keywords;  `prefix` fields are named `pfx`. -/
inductive TyExpressionVariant where
  | Literal
  | VariableExpression
  | FunctionParameter
  | AsmExpression
  | StorageAccess
  | AbiName
  | FunctionApplication (arguments : List TyFunctionArg)
  | LazyOperator (lhs : TyExpression) (rhs : TyExpression)
  | ArrayIndex (pfx : TyExpression) (index : TyExpression)
  | IntrinsicFunction (arguments : List TyExpression)
  | Tuple (fields : List TyExpression)
  | Array (contents : List TyExpression)
  | StructExpression (fields : List TyStructExpressionField)
  | CodeBlock (cb : TyCodeBlock)
  | MatchExp (desugared : TyExpression)
  | IfExp (condition : TyExpression) (thenE : TyExpression)
      (elseE : Option TyExpression)
  | StructFieldAccess (pfx : TyExpression)
  | TupleElemAccess (pfx : TyExpression)
  | AbiCast (address : TyExpression)
  | EnumTag (exp : TyExpression)
  | UnsafeDowncast (exp : TyExpression)
  | EnumInstantiation (contents : Option TyExpression)
  | WhileLoop (condition : TyExpression) (body : TyCodeBlock)
  | BreakExp
  | ContinueExp
  | Reassignment (reassignment : TyReassignment)
  | StorageReassignment (storage_reassignment : TyStorageReassignment)
  | ReturnExp (exp : TyExpression)

/-- A function-application argument: the parameter name paired with the
argument expression (the source's `(Ident, TyExpression)` tuple, whose `.1`
component the validator recurses into). -/
inductive TyFunctionArg where
  | mk (name : Ident) (expr : TyExpression)

/-- A struct-literal field: its name and value expression
(`TyStructExpressionField`; the validator recurses into `.value`). -/
inductive TyStructExpressionField where
  | mk (name : Ident) (value : TyExpression)

/-- A reassignment (`TyReassignment`): the base name of the left-hand target
(whose span the type check uses) and the right-hand expression; the
`..`-elided projection fields are unused by this pass. -/
inductive TyReassignment where
  | mk (lhs_base_name : Ident) (rhs : TyExpression)

/-- A storage reassignment (`TyStorageReassignment`): the validator uses the
whole node's span (the source computes it with `.span()`; here it is stored)
and the right-hand expression. -/
inductive TyStorageReassignment where
  | mk (span : Span) (rhs : TyExpression)

/-- An ordered code block of statement-like nodes (`TyCodeBlock`). -/
inductive TyCodeBlock where
  | mk (contents : List TyAstNode)

/-- A block-level node (`TyAstNode`); only its `content` is read. -/
inductive TyAstNode where
  | mk (content : TyAstNodeContent)

/-- The kinds of block-level nodes (`TyAstNodeContent`). -/
inductive TyAstNodeContent where
  | Expression (ex : TyExpression)
  | ImplicitReturnExpression (ex : TyExpression)
  | Declaration (d : TyDecl)
  | SideEffect

/-- A variable declaration: its name and initializer (`TyVariableDecl`). -/
inductive TyVariableDecl where
  | mk (name : Ident) (body : TyExpression)

/-- A constant declaration: its call path and optional value
(`TyConstantDecl`). -/
inductive TyConstantDecl where
  | mk (call_path : CallPath) (value : Option TyExpression)

/-- A function declaration as read by this pass: body, parameters and return
type (`TyFunctionDecl`). -/
inductive TyFunctionDecl where
  | mk (body : TyCodeBlock) (parameters : List TyFunctionParameter)
      (return_type : TypeArgument)

/-- An item of an impl-of-trait block (`TyImplItem`): a function or a
constant. -/
inductive TyImplItem where
  | Fn (d : TyFunctionDecl)
  | Constant (d : TyConstantDecl)

/-- The closed set of typed declarations (`TyDecl`).  In the source the
function, constant, struct, enum, storage, type-alias and impl-trait arms
carry a `DeclId` handle that the validator immediately resolves through the
declaration engine's total `get_*` lookup (spec §6); the model inlines that
lookup by embedding the fetched declaration where the source holds the
handle, since the pass only ever reads through it. -/
inductive TyDecl where
  | VariableDecl (d : TyVariableDecl)
  | ConstantDecl (d : TyConstantDecl)
  | FunctionDecl (d : TyFunctionDecl)
  | AbiDecl
  | TraitDecl
  | ImplTrait (items : List TyImplItem)
  | StructDecl (fields : List TyStructField)
  | EnumDecl (variants : List TyEnumVariant)
  | EnumVariantDecl (enum_decl : TyEnumDecl) (variant_name : Ident)
  | StorageDecl (fields : List TyStorageField)
  | TypeAliasDecl (d : TyTypeAliasDecl)
  | GenericTypeForFunctionScope
  | ErrorRecovery

end

/-- Return-type projection of a typed expression (`expr.return_type`). -/
def TyExpression.return_type : TyExpression → TypeId
  | .mk _ rt => rt

/-- The parameter loop of `validate_fn_decl` (source lines 373–387): for each
non-`self` parameter, `check!` the parameter's declared type at the type's
span with the `continue` fallback, accumulating warnings and errors in
order. -/
def params_validate (eng : Engines) :
    List TyFunctionParameter → List CompileWarning × List CompileError
  | [] => ([], [])
  | p :: rest =>
    if p.is_self then params_validate eng rest
    else
      let r := check_type eng p.type_argument.type_id p.type_argument.span false
      let (w, er) := params_validate eng rest
      (r.warnings ++ w, r.errors ++ er)

/-- The field loop of the struct arm of `decl_validate` (source lines
233–248): `check!` each field's declared type at the field's span with the
`continue` fallback. -/
def struct_fields_validate (eng : Engines) :
    List TyStructField → List CompileWarning × List CompileError
  | [] => ([], [])
  | f :: rest =>
    let r := check_type eng f.type_argument.type_id f.span false
    let (w, er) := struct_fields_validate eng rest
    (r.warnings ++ w, r.errors ++ er)

/-- The variant loop of the enum arm of `decl_validate` (source lines
249–264): `check!` each variant's declared type at the variant's span with
the `continue` fallback. -/
def enum_variants_validate (eng : Engines) :
    List TyEnumVariant → List CompileWarning × List CompileError
  | [] => ([], [])
  | v :: rest =>
    let r := check_type eng v.type_argument.type_id v.span false
    let (w, er) := enum_variants_validate eng rest
    (r.warnings ++ w, r.errors ++ er)

/-- The field loop of the storage arm of `decl_validate` (source lines
289–307): `check!` each field's declared type at the field name's span with
`ignore_self = true` and the `continue` fallback. -/
def storage_fields_validate (eng : Engines) :
    List TyStorageField → List CompileWarning × List CompileError
  | [] => ([], [])
  | f :: rest =>
    let r := check_type eng f.type_argument.type_id f.name.span true
    let (w, er) := storage_fields_validate eng rest
    (r.warnings ++ w, r.errors ++ er)

/-- The final wrapper of `decl_validate` and `validate_const_decl` (source
lines 319–323 and 347–351): return the accumulated diagnostics with a
payload when no error was collected, and payload-less otherwise. -/
def wrap_decl_result (w : List CompileWarning) (er : List CompileError) :
    CompileResult Unit :=
  if er.isEmpty then ok () w er else err w er

mutual

/-- The Expression Validator (`expr_validate`, source lines 24–142):
dispatch on the expression variant, `check!`-ing each sub-position with a
non-returning fallback (`()` or `continue`), so every arm accumulates the
sub-results' warnings and errors in execution order and the function ends in
`ok((), warnings, errors)`. -/
def expr_validate (eng : Engines) (ex : TyExpression) : CompileResult Unit :=
  match ex with
  | .mk v _ =>
    match v with
    | .Literal => ok () [] []
    | .VariableExpression => ok () [] []
    | .FunctionParameter => ok () [] []
    | .AsmExpression => ok () [] []
    | .StorageAccess => ok () [] []
    | .AbiName => ok () [] []
    | .FunctionApplication arguments =>
      let (w, er) := args_validate eng arguments
      ok () w er
    | .LazyOperator expr1 expr2 =>
      let r1 := expr_validate eng expr1
      let r2 := expr_validate eng expr2
      ok () (r1.warnings ++ r2.warnings) (r1.errors ++ r2.errors)
    | .ArrayIndex expr1 expr2 =>
      let r1 := expr_validate eng expr1
      let r2 := expr_validate eng expr2
      ok () (r1.warnings ++ r2.warnings) (r1.errors ++ r2.errors)
    | .IntrinsicFunction exprvec =>
      let (w, er) := exprs_validate eng exprvec
      ok () w er
    | .Tuple exprvec =>
      let (w, er) := exprs_validate eng exprvec
      ok () w er
    | .Array exprvec =>
      let (w, er) := exprs_validate eng exprvec
      ok () w er
    | .StructExpression fields =>
      let (w, er) := struct_expr_fields_validate eng fields
      ok () w er
    | .CodeBlock cb =>
      let r := validate_decls_for_storage_only_types_in_codeblock eng cb
      ok () r.warnings r.errors
    | .MatchExp desugared =>
      let r := expr_validate eng desugared
      ok () r.warnings r.errors
    | .IfExp condition thenE elseE =>
      let r1 := expr_validate eng condition
      let r2 := expr_validate eng thenE
      match elseE with
      | some elseExp =>
        let r3 := expr_validate eng elseExp
        ok () (r1.warnings ++ r2.warnings ++ r3.warnings)
          (r1.errors ++ r2.errors ++ r3.errors)
      | none =>
        ok () (r1.warnings ++ r2.warnings) (r1.errors ++ r2.errors)
    | .StructFieldAccess exp =>
      let r := expr_validate eng exp
      ok () r.warnings r.errors
    | .TupleElemAccess exp =>
      let r := expr_validate eng exp
      ok () r.warnings r.errors
    | .AbiCast exp =>
      let r := expr_validate eng exp
      ok () r.warnings r.errors
    | .EnumTag exp =>
      let r := expr_validate eng exp
      ok () r.warnings r.errors
    | .UnsafeDowncast exp =>
      let r := expr_validate eng exp
      ok () r.warnings r.errors
    | .EnumInstantiation contents =>
      match contents with
      | some f =>
        let r := expr_validate eng f
        ok () r.warnings r.errors
      | none => ok () [] []
    | .WhileLoop condition body =>
      let r1 := expr_validate eng condition
      let r2 := validate_decls_for_storage_only_types_in_codeblock eng body
      ok () (r1.warnings ++ r2.warnings) (r1.errors ++ r2.errors)
    | .BreakExp => ok () [] []
    | .ContinueExp => ok () [] []
    | .Reassignment reassignment =>
      match reassignment with
      | .mk lhs_base_name rhs =>
        let r1 := check_type eng rhs.return_type lhs_base_name.span false
        let r2 := expr_validate eng rhs
        ok () (r1.warnings ++ r2.warnings) (r1.errors ++ r2.errors)
    | .StorageReassignment storage_reassignment =>
      match storage_reassignment with
      | .mk span rhs =>
        let r1 := check_type eng rhs.return_type span false
        let r2 := expr_validate eng rhs
        ok () (r1.warnings ++ r2.warnings) (r1.errors ++ r2.errors)
    | .ReturnExp exp =>
      let r := expr_validate eng exp
      ok () r.warnings r.errors

/-- The argument loop of the `FunctionApplication` arm (source lines 34–38):
`check!` each argument expression with the `continue` fallback. -/
def args_validate (eng : Engines) :
    List TyFunctionArg → List CompileWarning × List CompileError
  | [] => ([], [])
  | .mk _ exprArg :: rest =>
    let r := expr_validate eng exprArg
    let (w, er) := args_validate eng rest
    (r.warnings ++ w, r.errors ++ er)

/-- The element loop shared by the `IntrinsicFunction`, `Tuple` and `Array`
arms (source lines 51–63): `check!` each element with the `continue`
fallback. -/
def exprs_validate (eng : Engines) :
    List TyExpression → List CompileWarning × List CompileError
  | [] => ([], [])
  | f :: rest =>
    let r := expr_validate eng f
    let (w, er) := exprs_validate eng rest
    (r.warnings ++ w, r.errors ++ er)

/-- The field loop of the `StructExpression` arm (source lines 64–68):
`check!` each field's value expression with the `continue` fallback. -/
def struct_expr_fields_validate (eng : Engines) :
    List TyStructExpressionField → List CompileWarning × List CompileError
  | [] => ([], [])
  | .mk _ value :: rest =>
    let r := expr_validate eng value
    let (w, er) := struct_expr_fields_validate eng rest
    (r.warnings ++ w, r.errors ++ er)

/-- Per-node dispatch (`ast_node_validate`, source lines 13–22). -/
def ast_node_validate (eng : Engines) (x : TyAstNodeContent) :
    CompileResult Unit :=
  match x with
  | .Expression expr => expr_validate eng expr
  | .ImplicitReturnExpression expr => expr_validate eng expr
  | .Declaration decl => decl_validate eng decl
  | .SideEffect => ok () [] []

/-- The statement loop of the Code Block Validator (source lines 410–417):
`check!` each node with the `continue` fallback. -/
def nodes_validate (eng : Engines) :
    List TyAstNode → List CompileWarning × List CompileError
  | [] => ([], [])
  | .mk content :: rest =>
    let r := ast_node_validate eng content
    let (w, er) := nodes_validate eng rest
    (r.warnings ++ w, r.errors ++ er)

/-- The Code Block Validator
(`validate_decls_for_storage_only_types_in_codeblock`, source lines
404–419): validate every node, merging all diagnostics, and end in
`ok((), warnings, errors)`. -/
def validate_decls_for_storage_only_types_in_codeblock (eng : Engines)
    (cb : TyCodeBlock) : CompileResult Unit :=
  match cb with
  | .mk contents =>
    let (w, er) := nodes_validate eng contents
    ok () w er

/-- The item loop of the impl-trait arm of `decl_validate` (source lines
210–232): a function item is `check!`-ed with the `()` fallback (continue),
a constant item with the `return err(warnings, errors)` fallback — a
payload-less constant result aborts the loop with the diagnostics
accumulated so far.  The third component reports whether the loop aborted.
-/
def impl_items_validate (eng : Engines) :
    List TyImplItem → List CompileWarning × List CompileError × Bool
  | [] => ([], [], false)
  | .Fn f :: rest =>
    let r := validate_fn_decl eng f
    let (w, er, ab) := impl_items_validate eng rest
    (r.warnings ++ w, r.errors ++ er, ab)
  | .Constant c :: rest =>
    let r := validate_const_decl eng c
    match r.value with
    | none => (r.warnings, r.errors, true)
    | some _ =>
      let (w, er, ab) := impl_items_validate eng rest
      (r.warnings ++ w, r.errors ++ er, ab)

/-- The Declaration Validator (`decl_validate`, source lines 177–324):
dispatch per declaration kind; arms whose `check!` fallback is
`return err(warnings, errors)` return payload-less immediately, all other
arms fall through to the final `if errors.is_empty()` wrapper. -/
def decl_validate (eng : Engines) (decl : TyDecl) : CompileResult Unit :=
  match decl with
  | .VariableDecl d =>
    match d with
    | .mk name body =>
      let r1 := check_type eng body.return_type name.span false
      let r2 := expr_validate eng body
      wrap_decl_result (r1.warnings ++ r2.warnings) (r1.errors ++ r2.errors)
  | .ConstantDecl d =>
    let r := validate_const_decl eng d
    match r.value with
    | none => err r.warnings r.errors
    | some _ => wrap_decl_result r.warnings r.errors
  | .FunctionDecl d =>
    let r := validate_fn_decl eng d
    match r.value with
    | none => err r.warnings r.errors
    | some _ => wrap_decl_result r.warnings r.errors
  | .AbiDecl => wrap_decl_result [] []
  | .TraitDecl => wrap_decl_result [] []
  | .ImplTrait items =>
    match impl_items_validate eng items with
    | (w, er, true) => err w er
    | (w, er, false) => wrap_decl_result w er
  | .StructDecl fields =>
    let (w, er) := struct_fields_validate eng fields
    wrap_decl_result w er
  | .EnumDecl variants =>
    let (w, er) := enum_variants_validate eng variants
    wrap_decl_result w er
  | .EnumVariantDecl enum_decl variant_name =>
    let rv := expect_variant_from_name enum_decl variant_name
    match rv.value with
    | none => err rv.warnings rv.errors
    | some variant =>
      let rc := check_type eng variant.type_argument.type_id variant.span false
      wrap_decl_result (rv.warnings ++ rc.warnings) (rv.errors ++ rc.errors)
  | .StorageDecl fields =>
    let (w, er) := storage_fields_validate eng fields
    wrap_decl_result w er
  | .TypeAliasDecl d =>
    let r := check_type eng d.ty.type_id d.span false
    wrap_decl_result r.warnings r.errors
  | .GenericTypeForFunctionScope => wrap_decl_result [] []
  | .ErrorRecovery => wrap_decl_result [] []

/-- Constant-declaration validation (`validate_const_decl`, source lines
326–352): if the constant has a value, check its type at the call-path
suffix's span and validate the value expression (both with non-returning
fallbacks), then apply the final `if errors.is_empty()` wrapper. -/
def validate_const_decl (eng : Engines) (d : TyConstantDecl) :
    CompileResult Unit :=
  match d with
  | .mk call_path value =>
    match value with
    | some expr =>
      let r1 := check_type eng expr.return_type call_path.suffix.span false
      let r2 := expr_validate eng expr
      wrap_decl_result (r1.warnings ++ r2.warnings) (r1.errors ++ r2.errors)
    | none => wrap_decl_result [] []

/-- Function-declaration validation (`validate_fn_decl`, source lines
354–395): validate the body (non-returning fallback), then every non-`self`
parameter's declared type (`continue` fallback), then the return type with
the `return err(warnings, errors)` fallback; if the return-type check has a
payload the function ends in `ok((), warnings, errors)`. -/
def validate_fn_decl (eng : Engines) (d : TyFunctionDecl) :
    CompileResult Unit :=
  match d with
  | .mk body parameters return_type =>
    let rb := validate_decls_for_storage_only_types_in_codeblock eng body
    let (wp, ep) := params_validate eng parameters
    let rr := check_type eng return_type.type_id return_type.span false
    let w := rb.warnings ++ wp ++ rr.warnings
    let er := rb.errors ++ ep ++ rr.errors
    match rr.value with
    | none => err w er
    | some _ => ok () w er

end

/-- Per-node entry point (`validate_decls_for_storage_only_types_in_ast`,
source lines 397–402). -/
def validate_decls_for_storage_only_types_in_ast (eng : Engines)
    (ast_n : TyAstNodeContent) : CompileResult Unit :=
  ast_node_validate eng ast_n

/-- Content projection of a block-level node. -/
def TyAstNode.content : TyAstNode → TyAstNodeContent
  | .mk c => c

/-- Expression projection of a function-application argument. -/
def TyFunctionArg.expr : TyFunctionArg → TyExpression
  | .mk _ e => e

/-- Value projection of a struct-literal field. -/
def TyStructExpressionField.value : TyStructExpressionField → TyExpression
  | .mk _ v => v

section Lemmas

/-- The error-pushing fold of `check_type` computes, for any accumulator, the
accumulator followed by one violation per nested description that passes the
self-exemption and is storage-only, in order. -/
theorem check_type_fold_eq (eng : Engines) (span : Span) (ig : Bool)
    (ti : TypeInfo) (l : List TypeInfo) : ∀ acc : List CompileError,
    l.foldl
      (fun errs n =>
        if ig ∧ n = ti then errs
        else if eng.is_type_info_storage_only n then
          errs ++ [CompileError.InvalidStorageOnlyTypeDecl (eng.help_out n) span]
        else errs)
      acc
    = acc ++ (l.filter
        (fun n => !(ig && decide (n = ti)) && eng.is_type_info_storage_only n)).map
        (fun n => CompileError.InvalidStorageOnlyTypeDecl (eng.help_out n) span) := by
  induction l with
  | nil => intro acc; simp
  | cons n rest ih =>
    intro acc
    by_cases h1 : ig = true ∧ n = ti
    · have hb : (!(ig && decide (n = ti)) && eng.is_type_info_storage_only n) = false := by
        obtain ⟨hig, hni⟩ := h1
        subst hig
        simp [hni]
      rw [List.foldl_cons, if_pos h1, List.filter_cons, hb]
      simpa using ih acc
    · have hx : (ig && decide (n = ti)) = false := by
        cases hig : ig with
        | false => simp
        | true =>
          have hni : ¬ n = ti := fun hni => h1 ⟨hig, hni⟩
          simp [hni]
      by_cases h2 : eng.is_type_info_storage_only n = true
      · have hb : (!(ig && decide (n = ti)) && eng.is_type_info_storage_only n) = true := by
          rw [hx, h2]
          rfl
        rw [List.foldl_cons, if_neg h1, if_pos h2, List.filter_cons, hb]
        rw [ih (acc ++ [CompileError.InvalidStorageOnlyTypeDecl (eng.help_out n) span])]
        simp
      · have hb : (!(ig && decide (n = ti)) && eng.is_type_info_storage_only n) = false := by
          rw [hx]
          simpa using h2
        rw [List.foldl_cons, if_neg h1, List.filter_cons, hb]
        rw [if_neg (by simpa using h2)]
        simpa using ih acc

/-- Closed form of the errors produced by `check_type`. -/
theorem check_type_errors_eq (eng : Engines) (ty : TypeId) (span : Span)
    (ig : Bool) :
    (check_type eng ty span ig).errors =
      ((eng.extract_nested_types (to_typeinfo_or_error_recovery eng ty span)).filter
        (fun n => !(ig && decide (n = to_typeinfo_or_error_recovery eng ty span))
          && eng.is_type_info_storage_only n)).map
        (fun n => CompileError.InvalidStorageOnlyTypeDecl (eng.help_out n) span) := by
  unfold check_type
  simp only [ok]
  rw [check_type_fold_eq]
  simp

/-- `check_type` never produces a warning. -/
theorem check_type_warnings_eq (eng : Engines) (ty : TypeId) (span : Span)
    (ig : Bool) : (check_type eng ty span ig).warnings = [] := rfl

/-- `check_type` always carries a payload. -/
theorem check_type_value_eq (eng : Engines) (ty : TypeId) (span : Span)
    (ig : Bool) : (check_type eng ty span ig).value = some () := rfl

/-- The storage-declaration arm of `decl_validate` accumulates, field by
field, the diagnostics of `check_type` run with the self exemption at the
field name's span. -/
theorem storage_fields_validate_eq (eng : Engines) (l : List TyStorageField) :
    storage_fields_validate eng l =
      (l.flatMap (fun f => (check_type eng f.type_argument.type_id f.name.span true).warnings),
       l.flatMap (fun f => (check_type eng f.type_argument.type_id f.name.span true).errors)) := by
  induction l with
  | nil => simp [storage_fields_validate]
  | cons f rest ih => simp [storage_fields_validate, ih]

/-- Both branches of the final wrapper carry the accumulated diagnostics. -/
theorem wrap_decl_result_errors (w : List CompileWarning)
    (er : List CompileError) : (wrap_decl_result w er).errors = er := by
  unfold wrap_decl_result
  by_cases h : er.isEmpty <;> simp [h, ok, err]

/-- Both branches of the final wrapper carry the accumulated warnings. -/
theorem wrap_decl_result_warnings (w : List CompileWarning)
    (er : List CompileError) : (wrap_decl_result w er).warnings = w := by
  unfold wrap_decl_result
  by_cases h : er.isEmpty <;> simp [h, ok, err]

end Lemmas

/-- C1: for every type handle, span and `ignoreSelf` flag, `check_type`
flags exactly the nested descriptions of the (resolved) type that the
resolver reports storage-only, at the given span, skipping a nested
description exactly when `ignoreSelf` is true and it equals the resolved
type itself; and the storage-declaration arm of `decl_validate` runs exactly
this check with `ignoreSelf = true` on each storage field's declared type at
the field's span, so a storage field whose own type is storage-only yields
no violation for that top-level type while each storage-only description
strictly nested inside it yields exactly one violation at the field's
span. -/
theorem check_type_flags_exactly_storage_only_nested :
    (∀ (eng : Engines) (ty : TypeId) (span : Span) (ignore_self : Bool),
      (check_type eng ty span ignore_self).errors =
        ((eng.extract_nested_types (to_typeinfo_or_error_recovery eng ty span)).filter
          (fun n => !(ignore_self && decide (n = to_typeinfo_or_error_recovery eng ty span))
            && eng.is_type_info_storage_only n)).map
          (fun n => CompileError.InvalidStorageOnlyTypeDecl (eng.help_out n) span))
    ∧ (∀ (eng : Engines) (fields : List TyStorageField),
      (decl_validate eng (TyDecl.StorageDecl fields)).errors =
        fields.flatMap
          (fun f => (check_type eng f.type_argument.type_id f.name.span true).errors)) := by
  constructor
  · intro eng ty span ignore_self
    exact check_type_errors_eq eng ty span ignore_self
  · intro eng fields
    show (decl_validate eng (TyDecl.StorageDecl fields)).errors = _
    rw [decl_validate]
    rw [storage_fields_validate_eq]
    exact wrap_decl_result_errors _ _

/-- C2: when resolving the type handle fails, `check_type` substitutes the
error-placeholder description and proceeds: its errors are exactly the
storage-only violations found by scanning the placeholder's nested
descriptions, and no diagnostic (neither error nor warning) is added for the
failed resolution itself. -/
theorem check_type_resolution_failure_no_diagnostic
    (eng : Engines) (ty : TypeId) (span : Span) (ignore_self : Bool)
    (h : eng.to_typeinfo ty span = none) :
    to_typeinfo_or_error_recovery eng ty span = TypeInfo.ErrorRecovery
    ∧ (check_type eng ty span ignore_self).errors =
        ((eng.extract_nested_types TypeInfo.ErrorRecovery).filter
          (fun n => !(ignore_self && decide (n = TypeInfo.ErrorRecovery))
            && eng.is_type_info_storage_only n)).map
          (fun n => CompileError.InvalidStorageOnlyTypeDecl (eng.help_out n) span)
    ∧ (check_type eng ty span ignore_self).warnings = [] := by
  have hres : to_typeinfo_or_error_recovery eng ty span = TypeInfo.ErrorRecovery := by
    unfold to_typeinfo_or_error_recovery
    rw [h]
  refine ⟨hres, ?_, check_type_warnings_eq eng ty span ignore_self⟩
  rw [check_type_errors_eq, hres]

section FnLemmas

/-- The parameter loop accumulates, in order, the diagnostics of the type
check of every non-`self` parameter. -/
theorem params_validate_eq (eng : Engines) (l : List TyFunctionParameter) :
    params_validate eng l =
      ((l.filter (fun p => ! p.is_self)).flatMap
        (fun p => (check_type eng p.type_argument.type_id p.type_argument.span false).warnings),
       (l.filter (fun p => ! p.is_self)).flatMap
        (fun p => (check_type eng p.type_argument.type_id p.type_argument.span false).errors)) := by
  induction l with
  | nil => simp [params_validate]
  | cons p rest ih =>
    by_cases h : p.is_self = true
    · simp [params_validate, h, ih]
    · have h' : p.is_self = false := by simpa using h
      simp [params_validate, h', ih]

/-- Closed form of `validate_fn_decl`: the body's, the non-`self`
parameters' and the return-type check's diagnostics, concatenated in that
order, with a payload (the return-type check always has one, so the
`return err` fallback is not taken). -/
theorem validate_fn_decl_eq (eng : Engines) (body : TyCodeBlock)
    (ps : List TyFunctionParameter) (rt : TypeArgument) :
    validate_fn_decl eng (TyFunctionDecl.mk body ps rt) =
      ok ()
        ((validate_decls_for_storage_only_types_in_codeblock eng body).warnings
          ++ (params_validate eng ps).1
          ++ (check_type eng rt.type_id rt.span false).warnings)
        ((validate_decls_for_storage_only_types_in_codeblock eng body).errors
          ++ (params_validate eng ps).2
          ++ (check_type eng rt.type_id rt.span false).errors) := by
  rw [validate_fn_decl]
  rcases hp : params_validate eng ps with ⟨wp, ep⟩
  simp [check_type_value_eq]

end FnLemmas

/-- C3: `validate_fn_decl` checks the declared type of every parameter
except `self` — its errors are the body's errors followed by, for each
non-`self` parameter in order, the errors of that parameter's type check at
the parameter's type span, followed by the return-type check's errors — so
no parameter failure stops the checking of later parameters, and the total
violation count is the sum of the per-parameter counts (one per offending
parameter when each offending type carries a single storage-only nested
description). -/
theorem validate_fn_decl_checks_all_nonself_params
    (eng : Engines) (body : TyCodeBlock) (ps : List TyFunctionParameter)
    (rt : TypeArgument) :
    (validate_fn_decl eng (TyFunctionDecl.mk body ps rt)).errors =
      (validate_decls_for_storage_only_types_in_codeblock eng body).errors
        ++ (ps.filter (fun p => ! p.is_self)).flatMap
          (fun p => (check_type eng p.type_argument.type_id p.type_argument.span false).errors)
        ++ (check_type eng rt.type_id rt.span false).errors
    ∧ (validate_fn_decl eng (TyFunctionDecl.mk body ps rt)).errors.length =
      (validate_decls_for_storage_only_types_in_codeblock eng body).errors.length
        + ((ps.filter (fun p => ! p.is_self)).map
            (fun p => (check_type eng p.type_argument.type_id p.type_argument.span false).errors.length)).sum
        + (check_type eng rt.type_id rt.span false).errors.length := by
  have h := validate_fn_decl_eq eng body ps rt
  rw [params_validate_eq] at h
  constructor
  · rw [h]
    rfl
  · rw [h]
    show (_ ++ _ ++ _ : List CompileError).length = _
    simp only [List.length_append, List.length_flatMap, Nat.add_assoc]
    rfl

/-- C4: `validate_fn_decl` runs the body, then the parameters, then the
return type; when the return-type check yields exactly one violation, the
declaration's result consists of the body's and the parameters' diagnostics
followed by that single violation and nothing further — validation of the
declaration stops with the return-type check and everything collected before
it is preserved. -/
theorem validate_fn_decl_return_type_fatal_preserves_diags
    (eng : Engines) (body : TyCodeBlock) (ps : List TyFunctionParameter)
    (rt : TypeArgument) (e0 : CompileError)
    (hret : (check_type eng rt.type_id rt.span false).errors = [e0]) :
    (validate_fn_decl eng (TyFunctionDecl.mk body ps rt)).errors =
      (validate_decls_for_storage_only_types_in_codeblock eng body).errors
        ++ (params_validate eng ps).2 ++ [e0]
    ∧ (validate_fn_decl eng (TyFunctionDecl.mk body ps rt)).warnings =
      (validate_decls_for_storage_only_types_in_codeblock eng body).warnings
        ++ (params_validate eng ps).1 := by
  have h := validate_fn_decl_eq eng body ps rt
  rw [hret, check_type_warnings_eq] at h
  rw [h]
  exact ⟨rfl, by simp [ok]⟩

/-- Witness engine for the concrete instantiations: handle 99 fails to
resolve, every other handle `t` resolves to the opaque description `t`;
description 0 nests descriptions 0 and 1, the error placeholder nests
description 3, every other description nests only itself; descriptions 0, 1
and 3 are storage-only. -/
def engW : Engines :=
  { to_typeinfo := fun tid _ => if tid = 99 then none else some (TypeInfo.Other tid)
    extract_nested_types := fun ti =>
      match ti with
      | TypeInfo.ErrorRecovery => [TypeInfo.Other 3]
      | TypeInfo.Other 0 => [TypeInfo.Other 0, TypeInfo.Other 1]
      | t => [t]
    is_type_info_storage_only := fun ti =>
      match ti with
      | TypeInfo.Other 0 => true
      | TypeInfo.Other 1 => true
      | TypeInfo.Other 3 => true
      | _ => false
    help_out := fun ti =>
      match ti with
      | TypeInfo.Other n => toString n
      | TypeInfo.ErrorRecovery => "unknown" }

/-- Witness body for C4: one statement reassigning a value of the
storage-only type 1 to `x`. -/
def bodyC4 : TyCodeBlock :=
  TyCodeBlock.mk
    [TyAstNode.mk (TyAstNodeContent.Expression
      (TyExpression.mk
        (TyExpressionVariant.Reassignment
          (TyReassignment.mk ⟨"x", 60⟩ (TyExpression.mk TyExpressionVariant.Literal 1)))
        0))]

/-- Witness for C4 at a function whose body, single parameter and return
type each involve the storage-only type 1: the return-type check yields
exactly one violation and the declaration's errors are the body's and the
parameter's violations followed by it. -/
theorem validate_fn_decl_return_type_fatal_preserves_diags_witness :
    (check_type engW (1 : TypeId) (50 : Span) false).errors =
      [CompileError.InvalidStorageOnlyTypeDecl "1" 50]
    ∧ (validate_fn_decl engW
        (TyFunctionDecl.mk bodyC4 [⟨⟨"p", 70⟩, ⟨1, 71⟩⟩] ⟨1, 50⟩)).errors =
      [CompileError.InvalidStorageOnlyTypeDecl "1" 60,
       CompileError.InvalidStorageOnlyTypeDecl "1" 71,
       CompileError.InvalidStorageOnlyTypeDecl "1" 50] := by
  refine ⟨by decide, ?_⟩
  rw [(validate_fn_decl_return_type_fatal_preserves_diags engW bodyC4
    [⟨⟨"p", 70⟩, ⟨1, 71⟩⟩] ⟨1, 50⟩
    (CompileError.InvalidStorageOnlyTypeDecl "1" 50) (by decide)).1]
  decide

/-- Witness for C2 at the unresolvable handle 99 of the witness engine: the
placeholder is substituted, the only error is the storage-only violation for
the placeholder's nested description 3, and no diagnostic reports the failed
resolution. -/
theorem check_type_resolution_failure_no_diagnostic_witness :
    engW.to_typeinfo (99 : TypeId) (20 : Span) = none
    ∧ to_typeinfo_or_error_recovery engW 99 20 = TypeInfo.ErrorRecovery
    ∧ (check_type engW 99 20 false).errors =
        [CompileError.InvalidStorageOnlyTypeDecl "3" 20]
    ∧ (check_type engW 99 20 false).warnings = [] := by
  have h := check_type_resolution_failure_no_diagnostic engW 99 20 false (by decide)
  exact ⟨by decide, h.1, by rw [h.2.1]; decide, h.2.2⟩

/-- The final wrapper's payload is present exactly when no error was
accumulated. -/
theorem wrap_decl_result_value (w : List CompileWarning)
    (er : List CompileError) :
    (wrap_decl_result w er).value = if er.isEmpty then some () else none := by
  unfold wrap_decl_result
  by_cases h : er.isEmpty <;> simp [h, ok, err]

/-- C5: for an enum-variant-selector declaration, `decl_validate` first
looks the named variant up in its enum; when the name is absent the result
is immediately the payload-less lookup failure, independent of the engines —
the variant's type is never checked; when the lookup succeeds, the result
carries exactly the errors of the variant's type check (no warnings), its
payload missing exactly when that check produced an error. -/
theorem decl_validate_enum_variant_lookup_policy :
    (∀ (eng : Engines) (ed : TyEnumDecl) (vname : Ident),
      ed.variants.find? (fun v => v.name.text == vname.text) = none →
      decl_validate eng (TyDecl.EnumVariantDecl ed vname) =
        err [] [CompileError.UnknownEnumVariant vname.text vname.span])
    ∧ (∀ (eng : Engines) (ed : TyEnumDecl) (vname : Ident) (v : TyEnumVariant),
      ed.variants.find? (fun v => v.name.text == vname.text) = some v →
      (decl_validate eng (TyDecl.EnumVariantDecl ed vname)).errors =
        (check_type eng v.type_argument.type_id v.span false).errors
      ∧ (decl_validate eng (TyDecl.EnumVariantDecl ed vname)).warnings = []
      ∧ ((decl_validate eng (TyDecl.EnumVariantDecl ed vname)).value = some ()
          ↔ (check_type eng v.type_argument.type_id v.span false).errors = [])) := by
  constructor
  · intro eng ed vname hfind
    rw [decl_validate]
    simp [expect_variant_from_name, hfind, err]
  · intro eng ed vname v hfind
    rw [decl_validate]
    simp only [expect_variant_from_name, hfind, ok]
    refine ⟨?_, ?_, ?_⟩
    · simpa using wrap_decl_result_errors _ _
    · have := wrap_decl_result_warnings
        ((([] : List CompileWarning)) ++ (check_type eng v.type_argument.type_id v.span false).warnings)
        (([] : List CompileError) ++ (check_type eng v.type_argument.type_id v.span false).errors)
      simpa [check_type_warnings_eq] using this
    · rw [wrap_decl_result_value]
      simp [List.isEmpty_iff]

/-- Witness enum for C5: a single variant `A` of the storage-only type 1. -/
def edW : TyEnumDecl := TyEnumDecl.mk [⟨⟨"A", 10⟩, ⟨1, 11⟩, 12⟩]

/-- Witness for C5: selecting the absent variant `B` yields only the fatal
lookup failure; selecting the present variant `A` yields exactly the
storage-only violation of `A`'s declared type at `A`'s span. -/
theorem decl_validate_enum_variant_lookup_policy_witness :
    decl_validate engW (TyDecl.EnumVariantDecl edW ⟨"B", 13⟩) =
      err [] [CompileError.UnknownEnumVariant "B" 13]
    ∧ (decl_validate engW (TyDecl.EnumVariantDecl edW ⟨"A", 13⟩)).errors =
      [CompileError.InvalidStorageOnlyTypeDecl "1" 12] := by
  constructor
  · exact decl_validate_enum_variant_lookup_policy.1 engW edW ⟨"B", 13⟩ (by decide)
  · rw [(decl_validate_enum_variant_lookup_policy.2 engW edW ⟨"A", 13⟩
      ⟨⟨"A", 10⟩, ⟨1, 11⟩, 12⟩ (by decide)).1]
    decide

section WalkerLemmas

/-- The code-block statement loop accumulates every node's diagnostics in
order. -/
theorem nodes_validate_eq (eng : Engines) (l : List TyAstNode) :
    nodes_validate eng l =
      (l.flatMap (fun x => (ast_node_validate eng x.content).warnings),
       l.flatMap (fun x => (ast_node_validate eng x.content).errors)) := by
  induction l with
  | nil => simp [nodes_validate]
  | cons x rest ih =>
    cases x with
    | mk c => simp [nodes_validate, ih, TyAstNode.content]

/-- The call-argument loop accumulates every argument's diagnostics in
order. -/
theorem args_validate_eq (eng : Engines) (l : List TyFunctionArg) :
    args_validate eng l =
      (l.flatMap (fun a => (expr_validate eng a.expr).warnings),
       l.flatMap (fun a => (expr_validate eng a.expr).errors)) := by
  induction l with
  | nil => simp [args_validate]
  | cons a rest ih =>
    cases a with
    | mk n e => simp [args_validate, ih, TyFunctionArg.expr]

/-- The expression-list loop accumulates every element's diagnostics in
order. -/
theorem exprs_validate_eq (eng : Engines) (l : List TyExpression) :
    exprs_validate eng l =
      (l.flatMap (fun f => (expr_validate eng f).warnings),
       l.flatMap (fun f => (expr_validate eng f).errors)) := by
  induction l with
  | nil => simp [exprs_validate]
  | cons f rest ih => simp [exprs_validate, ih]

/-- The struct-literal field loop accumulates every field value's
diagnostics in order. -/
theorem struct_expr_fields_validate_eq (eng : Engines)
    (l : List TyStructExpressionField) :
    struct_expr_fields_validate eng l =
      (l.flatMap (fun f => (expr_validate eng f.value).warnings),
       l.flatMap (fun f => (expr_validate eng f.value).errors)) := by
  induction l with
  | nil => simp [struct_expr_fields_validate]
  | cons f rest ih =>
    cases f with
    | mk n v => simp [struct_expr_fields_validate, ih, TyStructExpressionField.value]

end WalkerLemmas

/-- C6: in every list/sibling context — the statement nodes of a code
block, call arguments, intrinsic-call arguments, tuple elements, array
elements and struct-literal field values — the containing node's result is
the payload-carrying concatenation of every element's diagnostics, so one
element's failure never prevents validating the remaining elements and all
diagnostics merge into the one result. -/
theorem sibling_contexts_continue_on_error :
    (∀ (eng : Engines) (contents : List TyAstNode),
      validate_decls_for_storage_only_types_in_codeblock eng (TyCodeBlock.mk contents) =
        ok () (contents.flatMap (fun x => (ast_node_validate eng x.content).warnings))
          (contents.flatMap (fun x => (ast_node_validate eng x.content).errors)))
    ∧ (∀ (eng : Engines) (args : List TyFunctionArg) (rt : TypeId),
      expr_validate eng (TyExpression.mk (TyExpressionVariant.FunctionApplication args) rt) =
        ok () (args.flatMap (fun a => (expr_validate eng a.expr).warnings))
          (args.flatMap (fun a => (expr_validate eng a.expr).errors)))
    ∧ (∀ (eng : Engines) (exprvec : List TyExpression) (rt : TypeId),
      expr_validate eng (TyExpression.mk (TyExpressionVariant.IntrinsicFunction exprvec) rt) =
        ok () (exprvec.flatMap (fun f => (expr_validate eng f).warnings))
          (exprvec.flatMap (fun f => (expr_validate eng f).errors)))
    ∧ (∀ (eng : Engines) (exprvec : List TyExpression) (rt : TypeId),
      expr_validate eng (TyExpression.mk (TyExpressionVariant.Tuple exprvec) rt) =
        ok () (exprvec.flatMap (fun f => (expr_validate eng f).warnings))
          (exprvec.flatMap (fun f => (expr_validate eng f).errors)))
    ∧ (∀ (eng : Engines) (exprvec : List TyExpression) (rt : TypeId),
      expr_validate eng (TyExpression.mk (TyExpressionVariant.Array exprvec) rt) =
        ok () (exprvec.flatMap (fun f => (expr_validate eng f).warnings))
          (exprvec.flatMap (fun f => (expr_validate eng f).errors)))
    ∧ (∀ (eng : Engines) (fields : List TyStructExpressionField) (rt : TypeId),
      expr_validate eng (TyExpression.mk (TyExpressionVariant.StructExpression fields) rt) =
        ok () (fields.flatMap (fun f => (expr_validate eng f.value).warnings))
          (fields.flatMap (fun f => (expr_validate eng f.value).errors))) := by
  refine ⟨?_, ?_, ?_, ?_, ?_, ?_⟩
  · intro eng contents
    rw [validate_decls_for_storage_only_types_in_codeblock, nodes_validate_eq]
  · intro eng args rt
    rw [expr_validate, args_validate_eq]
  · intro eng exprvec rt
    rw [expr_validate, exprs_validate_eq]
  · intro eng exprvec rt
    rw [expr_validate, exprs_validate_eq]
  · intro eng exprvec rt
    rw [expr_validate, exprs_validate_eq]
  · intro eng fields rt
    rw [expr_validate, struct_expr_fields_validate_eq]

/-- C8: a reassignment first runs the Type Placement Checker with
`ignoreSelf = false` on the right-hand side's type at the left-hand base
name's span and then validates the right-hand expression, the node's result
merging both diagnostics in that order; a storage reassignment does the
same at the storage-reassignment node's span. -/
theorem reassignment_checks_type_then_rhs :
    (∀ (eng : Engines) (lhs_base_name : Ident) (rhs : TyExpression) (rt : TypeId),
      expr_validate eng
        (TyExpression.mk
          (TyExpressionVariant.Reassignment (TyReassignment.mk lhs_base_name rhs)) rt) =
        ok ()
          ((check_type eng rhs.return_type lhs_base_name.span false).warnings
            ++ (expr_validate eng rhs).warnings)
          ((check_type eng rhs.return_type lhs_base_name.span false).errors
            ++ (expr_validate eng rhs).errors))
    ∧ (∀ (eng : Engines) (span : Span) (rhs : TyExpression) (rt : TypeId),
      expr_validate eng
        (TyExpression.mk
          (TyExpressionVariant.StorageReassignment (TyStorageReassignment.mk span rhs)) rt) =
        ok ()
          ((check_type eng rhs.return_type span false).warnings
            ++ (expr_validate eng rhs).warnings)
          ((check_type eng rhs.return_type span false).errors
            ++ (expr_validate eng rhs).errors)) := by
  constructor
  · intro eng lhs_base_name rhs rt
    rw [expr_validate]
  · intro eng span rhs rt
    rw [expr_validate]

section MemberLemmas

/-- The struct-declaration field loop accumulates every field's type-check
diagnostics in order. -/
theorem struct_fields_validate_eq (eng : Engines) (l : List TyStructField) :
    struct_fields_validate eng l =
      (l.flatMap (fun f => (check_type eng f.type_argument.type_id f.span false).warnings),
       l.flatMap (fun f => (check_type eng f.type_argument.type_id f.span false).errors)) := by
  induction l with
  | nil => simp [struct_fields_validate]
  | cons f rest ih => simp [struct_fields_validate, ih]

/-- The enum-declaration variant loop accumulates every variant's type-check
diagnostics in order. -/
theorem enum_variants_validate_eq (eng : Engines) (l : List TyEnumVariant) :
    enum_variants_validate eng l =
      (l.flatMap (fun v => (check_type eng v.type_argument.type_id v.span false).warnings),
       l.flatMap (fun v => (check_type eng v.type_argument.type_id v.span false).errors)) := by
  induction l with
  | nil => simp [enum_variants_validate]
  | cons v rest ih => simp [enum_variants_validate, ih]

end MemberLemmas

/-- C7: struct and enum validation checks each member's declared type and
continues through all members: the declaration's errors are the
concatenation of every field's/variant's type-check errors at the member's
span, with no warnings ever, their count the sum of the per-member counts;
and a struct or enum whose members all check clean yields success carrying
zero errors and zero warnings. -/
theorem struct_enum_one_violation_per_member :
    (∀ (eng : Engines) (fields : List TyStructField),
      (decl_validate eng (TyDecl.StructDecl fields)).errors =
        fields.flatMap (fun f => (check_type eng f.type_argument.type_id f.span false).errors)
      ∧ (decl_validate eng (TyDecl.StructDecl fields)).warnings = []
      ∧ (decl_validate eng (TyDecl.StructDecl fields)).errors.length =
        (fields.map (fun f => (check_type eng f.type_argument.type_id f.span false).errors.length)).sum)
    ∧ (∀ (eng : Engines) (variants : List TyEnumVariant),
      (decl_validate eng (TyDecl.EnumDecl variants)).errors =
        variants.flatMap (fun v => (check_type eng v.type_argument.type_id v.span false).errors)
      ∧ (decl_validate eng (TyDecl.EnumDecl variants)).warnings = []
      ∧ (decl_validate eng (TyDecl.EnumDecl variants)).errors.length =
        (variants.map (fun v => (check_type eng v.type_argument.type_id v.span false).errors.length)).sum)
    ∧ (∀ (eng : Engines) (fields : List TyStructField),
      fields.flatMap (fun f => (check_type eng f.type_argument.type_id f.span false).errors) = [] →
      decl_validate eng (TyDecl.StructDecl fields) = ok () [] [])
    ∧ (∀ (eng : Engines) (variants : List TyEnumVariant),
      variants.flatMap (fun v => (check_type eng v.type_argument.type_id v.span false).errors) = [] →
      decl_validate eng (TyDecl.EnumDecl variants) = ok () [] []) := by
  have hw : ∀ (eng : Engines) (l : List TyStructField),
      l.flatMap (fun f => (check_type eng f.type_argument.type_id f.span false).warnings) = [] := by
    intro eng l
    simp [check_type_warnings_eq]
  have hw' : ∀ (eng : Engines) (l : List TyEnumVariant),
      l.flatMap (fun v => (check_type eng v.type_argument.type_id v.span false).warnings) = [] := by
    intro eng l
    simp [check_type_warnings_eq]
  refine ⟨?_, ?_, ?_, ?_⟩
  · intro eng fields
    rw [decl_validate, struct_fields_validate_eq]
    refine ⟨wrap_decl_result_errors _ _, ?_, ?_⟩
    · rw [wrap_decl_result_warnings, hw]
    · rw [wrap_decl_result_errors]
      simp only [List.length_flatMap]
      rfl
  · intro eng variants
    rw [decl_validate, enum_variants_validate_eq]
    refine ⟨wrap_decl_result_errors _ _, ?_, ?_⟩
    · rw [wrap_decl_result_warnings, hw']
    · rw [wrap_decl_result_errors]
      simp only [List.length_flatMap]
      rfl
  · intro eng fields hclean
    rw [decl_validate, struct_fields_validate_eq, hclean, hw]
    rfl
  · intro eng variants hclean
    rw [decl_validate, enum_variants_validate_eq, hclean, hw']
    rfl

/-- Witness for C7: a struct whose single field has the non-storage-only
type 5 validates to success with zero diagnostics, and an enum with one
variant of the storage-only type 1 reports exactly that one violation at the
variant's span. -/
theorem struct_enum_one_violation_per_member_witness :
    decl_validate engW (TyDecl.StructDecl [⟨⟨5, 30⟩, 31⟩]) = ok () [] []
    ∧ (decl_validate engW (TyDecl.EnumDecl [⟨⟨"A", 10⟩, ⟨1, 11⟩, 12⟩])).errors =
      [CompileError.InvalidStorageOnlyTypeDecl "1" 12] := by
  constructor
  · exact struct_enum_one_violation_per_member.2.2.1 engW [⟨⟨5, 30⟩, 31⟩] (by decide)
  · rw [(struct_enum_one_violation_per_member.2.1 engW [⟨⟨"A", 10⟩, ⟨1, 11⟩, 12⟩]).1]
    decide

/-- C9: `check_type` always returns a payload-carrying result, even when it
has appended errors, and consequently `validate_fn_decl` does too: the
fatal `return err` branch guarding its return-type check is never taken,
and neither are the error-recovery fallbacks guarding the other direct
`check_type` calls. -/
theorem check_type_value_always_present_fatal_unreachable :
    (∀ (eng : Engines) (ty : TypeId) (span : Span) (ignore_self : Bool),
      (check_type eng ty span ignore_self).value = some ())
    ∧ (∀ (eng : Engines) (d : TyFunctionDecl),
      (validate_fn_decl eng d).value = some ()) := by
  constructor
  · exact check_type_value_eq
  · intro eng d
    cases d with
    | mk body ps rt =>
      rw [validate_fn_decl_eq]
      rfl

end Sway

namespace Sway

mutual

/-- Expression predicate for C10: the subtree contains no reassignment, no
storage reassignment, and no declaration node inside any nested code
block. -/
def expr_reassign_free : TyExpression → Bool
  | .mk v _ => variant_reassign_free v

/-- Variant-level case analysis of `expr_reassign_free`. -/
def variant_reassign_free : TyExpressionVariant → Bool
  | .Literal => true
  | .VariableExpression => true
  | .FunctionParameter => true
  | .AsmExpression => true
  | .StorageAccess => true
  | .AbiName => true
  | .FunctionApplication arguments => args_reassign_free arguments
  | .LazyOperator expr1 expr2 =>
    expr_reassign_free expr1 && expr_reassign_free expr2
  | .ArrayIndex expr1 expr2 =>
    expr_reassign_free expr1 && expr_reassign_free expr2
  | .IntrinsicFunction exprvec => exprs_reassign_free exprvec
  | .Tuple exprvec => exprs_reassign_free exprvec
  | .Array exprvec => exprs_reassign_free exprvec
  | .StructExpression fields => sfields_reassign_free fields
  | .CodeBlock cb => cb_reassign_decl_free cb
  | .MatchExp desugared => expr_reassign_free desugared
  | .IfExp condition thenE elseE =>
    expr_reassign_free condition && expr_reassign_free thenE &&
      (match elseE with
       | some elseExp => expr_reassign_free elseExp
       | none => true)
  | .StructFieldAccess exp => expr_reassign_free exp
  | .TupleElemAccess exp => expr_reassign_free exp
  | .AbiCast exp => expr_reassign_free exp
  | .EnumTag exp => expr_reassign_free exp
  | .UnsafeDowncast exp => expr_reassign_free exp
  | .EnumInstantiation contents =>
    (match contents with
     | some f => expr_reassign_free f
     | none => true)
  | .WhileLoop condition body =>
    expr_reassign_free condition && cb_reassign_decl_free body
  | .BreakExp => true
  | .ContinueExp => true
  | .Reassignment _ => false
  | .StorageReassignment _ => false
  | .ReturnExp exp => expr_reassign_free exp

/-- List version of `expr_reassign_free` for call arguments. -/
def args_reassign_free : List TyFunctionArg → Bool
  | [] => true
  | .mk _ e :: rest => expr_reassign_free e && args_reassign_free rest

/-- List version of `expr_reassign_free` for expression lists. -/
def exprs_reassign_free : List TyExpression → Bool
  | [] => true
  | e :: rest => expr_reassign_free e && exprs_reassign_free rest

/-- List version of `expr_reassign_free` for struct-literal fields. -/
def sfields_reassign_free : List TyStructExpressionField → Bool
  | [] => true
  | .mk _ v :: rest => expr_reassign_free v && sfields_reassign_free rest

/-- Code-block predicate for C10: every node is an expression or implicit
return satisfying `expr_reassign_free`, or a side effect — in particular no
declaration node. -/
def cb_reassign_decl_free : TyCodeBlock → Bool
  | .mk contents => nodes_reassign_decl_free contents

/-- List version of `cb_reassign_decl_free`. -/
def nodes_reassign_decl_free : List TyAstNode → Bool
  | [] => true
  | .mk c :: rest => content_reassign_decl_free c && nodes_reassign_decl_free rest

/-- Node-content predicate for C10: declarations are excluded. -/
def content_reassign_decl_free : TyAstNodeContent → Bool
  | .Expression e => expr_reassign_free e
  | .ImplicitReturnExpression e => expr_reassign_free e
  | .Declaration _ => false
  | .SideEffect => true

end

end Sway

namespace Sway

mutual

/-- An expression free of reassignments and of declarations in nested blocks
validates to success with no diagnostics. -/
theorem expr_validate_reassign_free (eng : Engines) (ex : TyExpression)
    (h : expr_reassign_free ex = true) : expr_validate eng ex = ok () [] [] := by
  cases ex with
  | mk v rt =>
    rw [expr_reassign_free] at h
    cases v with
    | Literal => rw [expr_validate]
    | VariableExpression => rw [expr_validate]
    | FunctionParameter => rw [expr_validate]
    | AsmExpression => rw [expr_validate]
    | StorageAccess => rw [expr_validate]
    | AbiName => rw [expr_validate]
    | FunctionApplication arguments =>
      rw [variant_reassign_free] at h
      simp [expr_validate, args_validate_reassign_free eng arguments h, ok]
    | LazyOperator expr1 expr2 =>
      rw [variant_reassign_free, Bool.and_eq_true] at h
      simp [expr_validate, expr_validate_reassign_free eng expr1 h.1,
        expr_validate_reassign_free eng expr2 h.2, ok]
    | ArrayIndex expr1 expr2 =>
      rw [variant_reassign_free, Bool.and_eq_true] at h
      simp [expr_validate, expr_validate_reassign_free eng expr1 h.1,
        expr_validate_reassign_free eng expr2 h.2, ok]
    | IntrinsicFunction exprvec =>
      rw [variant_reassign_free] at h
      simp [expr_validate, exprs_validate_reassign_free eng exprvec h, ok]
    | Tuple exprvec =>
      rw [variant_reassign_free] at h
      simp [expr_validate, exprs_validate_reassign_free eng exprvec h, ok]
    | Array exprvec =>
      rw [variant_reassign_free] at h
      simp [expr_validate, exprs_validate_reassign_free eng exprvec h, ok]
    | StructExpression fields =>
      rw [variant_reassign_free] at h
      simp [expr_validate, sfields_validate_reassign_free eng fields h, ok]
    | CodeBlock cb =>
      rw [variant_reassign_free] at h
      simp [expr_validate, cb_validate_reassign_free eng cb h, ok]
    | MatchExp desugared =>
      rw [variant_reassign_free] at h
      simp [expr_validate, expr_validate_reassign_free eng desugared h, ok]
    | IfExp condition thenE elseE =>
      cases elseE with
      | some elseExp =>
        rw [variant_reassign_free] at h
        rw [Bool.and_eq_true, Bool.and_eq_true] at h
        simp [expr_validate, expr_validate_reassign_free eng condition h.1.1,
          expr_validate_reassign_free eng thenE h.1.2,
          expr_validate_reassign_free eng elseExp h.2, ok]
      | none =>
        rw [variant_reassign_free] at h
        rw [Bool.and_eq_true, Bool.and_eq_true] at h
        simp [expr_validate, expr_validate_reassign_free eng condition h.1.1,
          expr_validate_reassign_free eng thenE h.1.2, ok]
    | StructFieldAccess exp =>
      rw [variant_reassign_free] at h
      simp [expr_validate, expr_validate_reassign_free eng exp h, ok]
    | TupleElemAccess exp =>
      rw [variant_reassign_free] at h
      simp [expr_validate, expr_validate_reassign_free eng exp h, ok]
    | AbiCast exp =>
      rw [variant_reassign_free] at h
      simp [expr_validate, expr_validate_reassign_free eng exp h, ok]
    | EnumTag exp =>
      rw [variant_reassign_free] at h
      simp [expr_validate, expr_validate_reassign_free eng exp h, ok]
    | UnsafeDowncast exp =>
      rw [variant_reassign_free] at h
      simp [expr_validate, expr_validate_reassign_free eng exp h, ok]
    | EnumInstantiation contents =>
      cases contents with
      | some f =>
        rw [variant_reassign_free] at h
        simp [expr_validate, expr_validate_reassign_free eng f h, ok]
      | none => rw [expr_validate]
    | WhileLoop condition body =>
      rw [variant_reassign_free, Bool.and_eq_true] at h
      simp [expr_validate, expr_validate_reassign_free eng condition h.1,
        cb_validate_reassign_free eng body h.2, ok]
    | BreakExp => rw [expr_validate]
    | ContinueExp => rw [expr_validate]
    | Reassignment reassignment =>
      rw [variant_reassign_free] at h
      exact absurd h (by simp)
    | StorageReassignment storage_reassignment =>
      rw [variant_reassign_free] at h
      exact absurd h (by simp)
    | ReturnExp exp =>
      rw [variant_reassign_free] at h
      simp [expr_validate, expr_validate_reassign_free eng exp h, ok]

/-- List version of `expr_validate_reassign_free` for call arguments. -/
theorem args_validate_reassign_free (eng : Engines) (l : List TyFunctionArg)
    (h : args_reassign_free l = true) : args_validate eng l = ([], []) := by
  cases l with
  | nil => rw [args_validate]
  | cons a rest =>
    cases a with
    | mk n e =>
      rw [args_reassign_free, Bool.and_eq_true] at h
      simp [args_validate, expr_validate_reassign_free eng e h.1,
        args_validate_reassign_free eng rest h.2, ok]

/-- List version of `expr_validate_reassign_free` for expression lists. -/
theorem exprs_validate_reassign_free (eng : Engines) (l : List TyExpression)
    (h : exprs_reassign_free l = true) : exprs_validate eng l = ([], []) := by
  cases l with
  | nil => rw [exprs_validate]
  | cons e rest =>
    rw [exprs_reassign_free, Bool.and_eq_true] at h
    simp [exprs_validate, expr_validate_reassign_free eng e h.1,
      exprs_validate_reassign_free eng rest h.2, ok]

/-- List version of `expr_validate_reassign_free` for struct-literal
fields. -/
theorem sfields_validate_reassign_free (eng : Engines)
    (l : List TyStructExpressionField)
    (h : sfields_reassign_free l = true) :
    struct_expr_fields_validate eng l = ([], []) := by
  cases l with
  | nil => rw [struct_expr_fields_validate]
  | cons f rest =>
    cases f with
    | mk n v =>
      rw [sfields_reassign_free, Bool.and_eq_true] at h
      simp [struct_expr_fields_validate, expr_validate_reassign_free eng v h.1,
        sfields_validate_reassign_free eng rest h.2, ok]

/-- A code block free of declarations and reassignments validates to
success with no diagnostics. -/
theorem cb_validate_reassign_free (eng : Engines) (cb : TyCodeBlock)
    (h : cb_reassign_decl_free cb = true) :
    validate_decls_for_storage_only_types_in_codeblock eng cb = ok () [] [] := by
  cases cb with
  | mk contents =>
    rw [cb_reassign_decl_free] at h
    simp [validate_decls_for_storage_only_types_in_codeblock,
      nodes_validate_reassign_free eng contents h, ok]

/-- List version of `cb_validate_reassign_free`. -/
theorem nodes_validate_reassign_free (eng : Engines) (l : List TyAstNode)
    (h : nodes_reassign_decl_free l = true) : nodes_validate eng l = ([], []) := by
  cases l with
  | nil => rw [nodes_validate]
  | cons x rest =>
    cases x with
    | mk c =>
      rw [nodes_reassign_decl_free, Bool.and_eq_true] at h
      simp [nodes_validate, content_validate_reassign_free eng c h.1,
        nodes_validate_reassign_free eng rest h.2, ok]

/-- Node-content version of `cb_validate_reassign_free`. -/
theorem content_validate_reassign_free (eng : Engines) (c : TyAstNodeContent)
    (h : content_reassign_decl_free c = true) :
    ast_node_validate eng c = ok () [] [] := by
  cases c with
  | Expression e =>
    rw [content_reassign_decl_free] at h
    rw [ast_node_validate]
    exact expr_validate_reassign_free eng e h
  | ImplicitReturnExpression e =>
    rw [content_reassign_decl_free] at h
    rw [ast_node_validate]
    exact expr_validate_reassign_free eng e h
  | Declaration d =>
    rw [content_reassign_decl_free] at h
    exact absurd h (by simp)
  | SideEffect => rw [ast_node_validate]

end

end Sway

namespace Sway

/-- C10: every typed expression whose subtree contains no reassignment, no
storage reassignment, and no declaration node inside any nested code block
validates to success with zero errors and zero warnings, for every engine —
expression validation invokes the Type Placement Checker only at
reassignment sites, never on the types of other expression kinds. -/
theorem expr_validate_no_reassignment_clean (eng : Engines)
    (ex : TyExpression) (h : expr_reassign_free ex = true) :
    expr_validate eng ex = ok () [] [] :=
  expr_validate_reassign_free eng ex h

/-- Witness expression for C10: an if/else over a tuple holding a literal of
the storage-only type 0 and a code block, with a return in the else branch —
reassignment-free, and validated without diagnostics although storage-only
types occur in its type annotations. -/
def exC10 : TyExpression :=
  TyExpression.mk
    (TyExpressionVariant.IfExp (TyExpression.mk TyExpressionVariant.Literal 1)
      (TyExpression.mk
        (TyExpressionVariant.Tuple
          [TyExpression.mk TyExpressionVariant.Literal 0,
           TyExpression.mk
             (TyExpressionVariant.CodeBlock
               (TyCodeBlock.mk
                 [TyAstNode.mk (TyAstNodeContent.Expression
                    (TyExpression.mk TyExpressionVariant.StorageAccess 1)),
                  TyAstNode.mk TyAstNodeContent.SideEffect]))
             0])
        0)
      (some (TyExpression.mk
        (TyExpressionVariant.ReturnExp
          (TyExpression.mk TyExpressionVariant.VariableExpression 0))
        2)))
    0

/-- Witness for C10 at `exC10` with the witness engine, under which the
types 0 and 1 occurring in the expression are storage-only. -/
theorem expr_validate_no_reassignment_clean_witness :
    expr_reassign_free exC10 = true
    ∧ expr_validate engW exC10 = ok () [] [] := by
  refine ⟨by decide, ?_⟩
  exact expr_validate_no_reassignment_clean engW exC10 (by decide)

end Sway
